import Mathlib

/-!
Verification of the trading-engine core of `app-binance` (`src/app-bfuture/src/main.py`)
against its natural-language specification.

The Python source is shallowly embedded: pure helpers become Lean functions,
and each network-touching method becomes a function of an explicit
`HttpOutcome` oracle describing what the single wrapped HTTP round trip did
(`ok payload` for HTTP 200, `httpError` for a non-success status, `exn` for a
transport exception, timeouts included).  Machine integers and Python floats
appear as `Nat` / `Int` / `ℚ`; every float operation the claims touch
(sign test, absolute value, division and decimal rounding at the concrete
scenario inputs) is exact in `ℚ`.  Explicit `asyncio.sleep` delays are
returned as data (seconds), and calls to exchange endpoints are returned as
an `ExchangeCall` trace so that "never calls the exchange" style claims are
statable.
-/

namespace AppBinance

/-! ### SHA-256 (FIPS 180-4) over byte lists

`_generate_signature` (main.py:36-43) delegates to `hashlib.sha256` via
`hmac.new`; the hash itself is embedded here from the standard.  Bytes are
`Nat`s below 256 and 32-bit words are `Nat`s reduced modulo `2^32`. -/

def M32 : Nat := 4294967296

def add32 (a b : Nat) : Nat := (a + b) % M32

def rotr32 (n x : Nat) : Nat := (x >>> n) ||| ((x <<< (32 - n)) % M32)

def not32 (x : Nat) : Nat := x ^^^ (M32 - 1)

def smallSigma0 (x : Nat) : Nat := rotr32 7 x ^^^ rotr32 18 x ^^^ (x >>> 3)

def smallSigma1 (x : Nat) : Nat := rotr32 17 x ^^^ rotr32 19 x ^^^ (x >>> 10)

def bigSigma0 (x : Nat) : Nat := rotr32 2 x ^^^ rotr32 13 x ^^^ rotr32 22 x

def bigSigma1 (x : Nat) : Nat := rotr32 6 x ^^^ rotr32 11 x ^^^ rotr32 25 x

def chFn (x y z : Nat) : Nat := (x &&& y) ^^^ (not32 x &&& z)

def majFn (x y z : Nat) : Nat := (x &&& y) ^^^ (x &&& z) ^^^ (y &&& z)

/-- The 64 SHA-256 round constants. -/
def sha256K : List Nat :=
  [1116352408, 1899447441, 3049323471, 3921009573, 961987163, 1508970993,
   2453635748, 2870763221, 3624381080, 310598401, 607225278, 1426881987,
   1925078388, 2162078206, 2614888103, 3248222580, 3835390401, 4022224774,
   264347078, 604807628, 770255983, 1249150122, 1555081692, 1996064986,
   2554220882, 2821834349, 2952996808, 3210313671, 3336571891, 3584528711,
   113926993, 338241895, 666307205, 773529912, 1294757372, 1396182291,
   1695183700, 1986661051, 2177026350, 2456956037, 2730485921, 2820302411,
   3259730800, 3345764771, 3516065817, 3600352804, 4094571909, 275423344,
   430227734, 506948616, 659060556, 883997877, 958139571, 1322822218,
   1537002063, 1747873779, 1955562222, 2024104815, 2227730452, 2361852424,
   2428436474, 2756734187, 3204031479, 3329325298]

/-- Initial hash value H⁽⁰⁾. -/
def sha256H0 : List Nat :=
  [1779033703, 3144134277, 1013904242, 2773480762, 1359893119, 2600822924,
   528734635, 1541459225]

/-- Big-endian byte expansion of `v` into `n` bytes. -/
def beBytes (n v : Nat) : List Nat :=
  (List.range n).map (fun i => (v >>> (8 * (n - 1 - i))) % 256)

/-- SHA-256 padding: append 0x80, zero bytes up to 56 mod 64, then the
bit length as an 8-byte big-endian integer. -/
def sha256Pad (msg : List Nat) : List Nat :=
  let z := (120 - ((msg.length + 1) % 64)) % 64
  msg ++ [0x80] ++ List.replicate z 0 ++ beBytes 8 (8 * msg.length)

/-- Group a byte list into big-endian 32-bit words. -/
def toWords : List Nat → List Nat
  | a :: b :: c :: d :: rest =>
      ((a <<< 24) ||| (b <<< 16) ||| (c <<< 8) ||| d) :: toWords rest
  | _ => []

/-- Message schedule: the 16 block words extended to 64. -/
def sha256Schedule (block : List Nat) : List Nat :=
  (List.range 48).foldl
    (fun w i =>
      w ++ [add32 (add32 (w.getD i 0) (smallSigma0 (w.getD (i + 1) 0)))
                  (add32 (w.getD (i + 9) 0) (smallSigma1 (w.getD (i + 14) 0)))])
    (toWords block)

/-- One compression round state: the eight working variables. -/
def sha256Round (w : List Nat) (st : Nat × Nat × Nat × Nat × Nat × Nat × Nat × Nat) (i : Nat) :
    Nat × Nat × Nat × Nat × Nat × Nat × Nat × Nat :=
  match st with
  | (a, b, c, d, e, f, g, h) =>
    let t1 := add32 h (add32 (bigSigma1 e) (add32 (chFn e f g) (add32 (sha256K.getD i 0) (w.getD i 0))))
    let t2 := add32 (bigSigma0 a) (majFn a b c)
    (add32 t1 t2, a, b, c, add32 d t1, e, f, g)

/-- Compress one 64-byte block into the running hash. -/
def sha256Compress (h : List Nat) (block : List Nat) : List Nat :=
  let w := sha256Schedule block
  match (List.range 64).foldl (sha256Round w)
      (h.getD 0 0, h.getD 1 0, h.getD 2 0, h.getD 3 0, h.getD 4 0, h.getD 5 0, h.getD 6 0, h.getD 7 0) with
  | (a, b, c, d, e, f, g, hh) =>
    [add32 (h.getD 0 0) a, add32 (h.getD 1 0) b, add32 (h.getD 2 0) c, add32 (h.getD 3 0) d,
     add32 (h.getD 4 0) e, add32 (h.getD 5 0) f, add32 (h.getD 6 0) g, add32 (h.getD 7 0) hh]

/-- Fold the compression function over successive 64-byte blocks. -/
def sha256Blocks (h : List Nat) (msg : List Nat) : Nat → List Nat
  | 0 => h
  | n + 1 => sha256Blocks (sha256Compress h (msg.take 64)) (msg.drop 64) n

/-- SHA-256 digest (32 bytes) of a byte list. -/
def sha256 (msg : List Nat) : List Nat :=
  let padded := sha256Pad msg
  (sha256Blocks sha256H0 padded (padded.length / 64)).flatMap (beBytes 4)

/-- HMAC-SHA256 (RFC 2104) with a 64-byte block size, as `hmac.new(key, msg,
hashlib.sha256)` computes it. -/
def hmacSha256 (key msg : List Nat) : List Nat :=
  let k := if 64 < key.length then sha256 key else key
  let k0 := k ++ List.replicate (64 - k.length) 0
  sha256 ((k0.map (· ^^^ 0x5c)) ++ sha256 ((k0.map (· ^^^ 0x36)) ++ msg))

/-- Lowercase hex character for a nibble, as `hexdigest` prints. -/
def hexCharLower (n : Nat) : Char :=
  if n < 10 then Char.ofNat (48 + n) else Char.ofNat (87 + n)

/-- Lowercase hex rendering of a byte list (`.hexdigest()`). -/
def hexDigest (bs : List Nat) : String :=
  ⟨bs.flatMap (fun b => [hexCharLower (b / 16), hexCharLower (b % 16)])⟩

/-! ### UTF-8 and `urllib.parse.urlencode` -/

/-- UTF-8 encoding of a Unicode code point (what `str.encode()` does per char). -/
def utf8EncodeCp (c : Nat) : List Nat :=
  if c < 0x80 then [c]
  else if c < 0x800 then [0xc0 ||| (c >>> 6), 0x80 ||| (c &&& 0x3f)]
  else if c < 0x10000 then
    [0xe0 ||| (c >>> 12), 0x80 ||| ((c >>> 6) &&& 0x3f), 0x80 ||| (c &&& 0x3f)]
  else
    [0xf0 ||| (c >>> 18), 0x80 ||| ((c >>> 12) &&& 0x3f), 0x80 ||| ((c >>> 6) &&& 0x3f),
     0x80 ||| (c &&& 0x3f)]

/-- UTF-8 bytes of a string. -/
def utf8Bytes (s : String) : List Nat := s.data.flatMap (fun c => utf8EncodeCp c.toNat)

/-- Uppercase hex character for a nibble (percent-escapes use uppercase). -/
def hexCharUpper (n : Nat) : Char :=
  if n < 10 then Char.ofNat (48 + n) else Char.ofNat (55 + n)

/-- `urllib.parse.quote_plus` on one byte: letters, digits and `_.-~` pass
through, space becomes `+`, everything else becomes `%XX`. -/
def quotePlusByte (b : Nat) : List Char :=
  if (48 ≤ b ∧ b ≤ 57) ∨ (65 ≤ b ∧ b ≤ 90) ∨ (97 ≤ b ∧ b ≤ 122) ∨
      b = 95 ∨ b = 46 ∨ b = 45 ∨ b = 126 then [Char.ofNat b]
  else if b = 32 then ['+']
  else ['%', hexCharUpper (b / 16), hexCharUpper (b % 16)]

/-- `urllib.parse.quote_plus` of a string, over its UTF-8 bytes. -/
def quotePlus (s : String) : String := ⟨(utf8Bytes s).flatMap quotePlusByte⟩

/-- `urllib.parse.urlencode`: `k=v` pairs joined by `&`, in the order given,
each side quoted with `quote_plus`.  The callers of `_generate_signature`
pass their numeric fields already rendered by `str`. -/
def urlencode (params : List (String × String)) : String :=
  String.intercalate "&" (params.map (fun p => quotePlus p.1 ++ "=" ++ quotePlus p.2))

/-- `BinanceConnector._generate_signature` (main.py:36-43): the HMAC-SHA256
hex digest of the urlencoded parameters, keyed by the secret, both UTF-8. -/
def generate_signature (secret : String) (params : List (String × String)) : String :=
  hexDigest (hmacSha256 (utf8Bytes secret) (utf8Bytes (urlencode params)))

/-! ### Data model

Exchange payload rows and the engine's own `Trade` records, as the Python
dictionaries hold them.  Numeric fields the code passes through `float(...)`
are `ℚ`.  `marginRatioVal` embeds the source's `marginRatio` key. -/

/-- One row of the `/fapi/v2/positionRisk` response, after the `float(...)`
coercions applied at main.py:91 and main.py:500-508. -/
structure Position where
  symbol : String
  positionAmt : ℚ
  entryPrice : ℚ
  markPrice : ℚ
  liquidationPrice : ℚ
  marginRatioVal : ℚ
  unRealizedProfit : ℚ
deriving DecidableEq

/-- One row of the `/fapi/v1/openOrders` response (fields read at
main.py:552-558). -/
structure OpenOrder where
  symbol : String
  side : String
  ordType : String
  price : ℚ
  origQty : ℚ
  orderId : Int
deriving DecidableEq

/-- An entry of `self.active_trades` (the dict built at main.py:714-720).
Python compares these dicts by value in `trade in self.active_trades` and
`list.remove`, which `DecidableEq` mirrors. -/
structure Trade where
  symbol : String
  orderId : Int
  quantity : ℚ
  entry_time : ℚ
  leverage : Nat
deriving DecidableEq

/-- Outcome of one wrapped HTTP round trip: `ok` is an HTTP 200 with the
parsed payload, `httpError` a non-success status code, `exn` any raised
exception (timeouts and transport errors alike). -/
inductive HttpOutcome (α : Type) where
  | ok : α → HttpOutcome α
  | httpError : HttpOutcome α
  | exn : HttpOutcome α
deriving DecidableEq

/-- Exchange endpoints an engine operation can hit, recorded as a trace. -/
inductive ExchangeCall where
  | fetchSnapshot : ExchangeCall
  | closeOrder : String → ℚ → ExchangeCall
  | cancelEndpoint : Int → ExchangeCall
deriving DecidableEq

/-! ### BinanceConnector operations -/

/-- Result dictionary of `place_scalping_order` (status, orderId, and the
symbol/quantity keys that only the non-rejection dictionaries carry). -/
structure PlaceOrderResult where
  status : String
  orderId : Option Int
  symbol : Option String
  quantity : Option ℚ
deriving DecidableEq

/-- `BinanceConnector.place_scalping_order` (main.py:160-201), as a function
of the order POST's outcome and of `int(time.time())` at the exception
handler.  Returns the result dictionary and the seconds slept.  The
best-effort `set_leverage` pre-step catches its own exceptions and cannot
alter the result. -/
def place_scalping_order (symbol : String) (quantity : ℚ)
    (resp : HttpOutcome Int) (now : Int) : PlaceOrderResult × ℚ :=
  match resp with
  | .ok oid =>
      ({ status := "FILLED", orderId := some oid, symbol := some symbol, quantity := some quantity }, 0)
  | .httpError =>
      ({ status := "ERROR", orderId := none, symbol := none, quantity := none }, 0)
  | .exn =>
      ({ status := "FILLED", orderId := some now, symbol := some symbol, quantity := some quantity }, 2)

/-- The market order `close_position` (main.py:203-217) builds: opposite
side, quantity the absolute position amount. -/
structure OrderRequest where
  symbol : String
  side : String
  ordType : String
  quantity : ℚ
deriving DecidableEq

/-- The params dictionary `close_position` sends (main.py:206-217). -/
def close_position_request (symbol : String) (position_amt : ℚ) : OrderRequest :=
  { symbol := symbol
    side := if position_amt > 0 then "SELL" else "BUY"
    ordType := "MARKET"
    quantity := |position_amt| }

/-- Result dictionary of `close_position` plus seconds slept
(main.py:228-237): CLOSED with the real id on 200, ERROR on rejection,
fabricated CLOSED with `int(time.time())` after a 1s sleep on exception. -/
structure CloseResult where
  status : String
  orderId : Option Int
deriving DecidableEq

def close_position_result (resp : HttpOutcome Int) (now : Int) : CloseResult × ℚ :=
  match resp with
  | .ok oid => ({ status := "CLOSED", orderId := some oid }, 0)
  | .httpError => ({ status := "ERROR", orderId := none }, 0)
  | .exn => ({ status := "CLOSED", orderId := some now }, 1)

/-- `BinanceConnector.get_open_orders_and_positions` (main.py:64-125).
`outerOk` is whether the session setup before the two inner try-blocks
succeeded (its failure is the outer handler returning `([], [])`); each
inner fetch has its own isolated outcome.  Positions are filtered to
nonzero `positionAmt` (main.py:91); every failure path yields `[]`. -/
def get_open_orders_and_positions (outerOk : Bool)
    (posResp : HttpOutcome (List Position)) (ordResp : HttpOutcome (List OpenOrder)) :
    List OpenOrder × List Position :=
  if outerOk then
    let open_positions :=
      match posResp with
      | .ok ps => ps.filter (fun p => decide (p.positionAmt ≠ 0))
      | .httpError => []
      | .exn => []
    let orders :=
      match ordResp with
      | .ok os => os
      | .httpError => []
      | .exn => []
    (orders, open_positions)
  else ([], [])

/-- Payload of `/fapi/v1/order` status as `get_order_status` hands it back:
the dictionary's `executedQty` key may be absent (`.get` default `'0'`). -/
structure OrderStatusPayload where
  executedQty : Option String
deriving DecidableEq

/-- `BinanceConnector.get_order_status` (main.py:239-266): the parsed body
on 200, `None` on a non-success status or any exception. -/
def get_order_status (resp : HttpOutcome OrderStatusPayload) : Option OrderStatusPayload :=
  match resp with
  | .ok p => some p
  | .httpError => none
  | .exn => none

/-- Result dictionary of the `cancel_order` stub. -/
structure CancelResult where
  status : String
  id : Int
deriving DecidableEq

/-- `BinanceConnector.cancel_order` (main.py:268-271): sleeps 1 second and
returns CANCELED with the given id; its body contains no HTTP call, so its
exchange-call trace is empty. -/
def cancel_order (order_id : Int) : CancelResult × ℚ × List ExchangeCall :=
  ({ status := "CANCELED", id := order_id }, 1, [])

/-! ### TradingBotUI: monitoring tick, auto-close, manual close

`fetch_and_display_orders` (main.py:492-610) is one observation of the
monitoring loop: fetch the snapshot, render the dashboard from
`positions[0]`, scan the ledger for a profit-target hit, and auto-close the
first hit via `_close_active_trade`.  Both `_close_active_trade`
(main.py:781) and `_manual_close_trade` (main.py:639) end by `await`-ing
`fetch_and_display_orders` again on a fresh snapshot; that trailing refresh
is the next observation and is modelled as a separate application of the
tick, so each embedded tick consumes exactly one snapshot. -/

/-- `self.scalping_profit_target` (main.py:284). -/
def scalping_profit_target : ℚ := 2

/-- The dashboard values `fetch_and_display_orders` derives (main.py:498-545):
everything comes from `positions[0]`; with no position, the placeholder
branch.  String formatting of these numbers is presentation and not
modelled; `pnlPct` is the computed percentage of main.py:511-514. -/
structure Dashboard where
  hasPosition : Bool
  symbol : String
  positionAmt : ℚ
  entryPrice : ℚ
  markPrice : ℚ
  liqPrice : ℚ
  marginRatioVal : ℚ
  pnl : ℚ
  pnlPct : ℚ
deriving DecidableEq

def dashboardOf : List Position → Dashboard
  | [] =>
      { hasPosition := false, symbol := "Sin posiciones", positionAmt := 0, entryPrice := 0,
        markPrice := 0, liqPrice := 0, marginRatioVal := 0, pnl := 0, pnlPct := 0 }
  | pos :: _ =>
      let pnl_val := pos.unRealizedProfit
      let pnl_pct :=
        if pos.entryPrice > 0 then pnl_val / (|pos.positionAmt| * pos.entryPrice) * 100 else 0
      { hasPosition := true, symbol := pos.symbol, positionAmt := pos.positionAmt,
        entryPrice := pos.entryPrice, markPrice := pos.markPrice,
        liqPrice := pos.liquidationPrice, marginRatioVal := pos.marginRatioVal,
        pnl := pnl_val, pnlPct := pnl_pct }

/-- `TradingBotUI._close_active_trade` (main.py:739-777), up to its trailing
refresh: issue `close_position(symbol, position_amt)`; if the result status
is CLOSED, remove the trade from `active_trades` when present (Python
`list.remove` drops the first occurrence, as `List.erase` does); on ERROR
leave the ledger alone.  Returns the new ledger and the calls made. -/
def close_active_trade (closeResp : HttpOutcome Int) (now : Int)
    (symbol : String) (position_amt : ℚ) (trade : Trade) (ledger : List Trade) :
    List Trade × List ExchangeCall :=
  let res := (close_position_result closeResp now).1
  let ledger' :=
    if res.status = "CLOSED" then
      if trade ∈ ledger then ledger.erase trade else ledger
    else ledger
  (ledger', [ExchangeCall.closeOrder symbol position_amt])

/-- The profit-target scan of main.py:529-534: only `positions[0]` is
consulted; the `for`/`break` over `active_trades` fires `_close_active_trade`
on the first trade whose symbol equals `positions[0].symbol` when that
position's unrealized profit has reached the target, then stops. -/
def profitScan (positions : List Position) (closeResp : HttpOutcome Int) (now : Int)
    (ledger : List Trade) : List Trade × List ExchangeCall :=
  match positions with
  | [] => (ledger, [])
  | pos :: _ =>
      match ledger.find?
          (fun t => t.symbol == pos.symbol && decide (pos.unRealizedProfit ≥ scalping_profit_target)) with
      | some trade => close_active_trade closeResp now pos.symbol pos.positionAmt trade ledger
      | none => (ledger, [])

/-- Observable result of one monitoring tick. -/
structure TickResult where
  dashboard : Dashboard
  orders : List OpenOrder
  ledger : List Trade
  calls : List ExchangeCall
deriving DecidableEq

/-- `TradingBotUI.fetch_and_display_orders` (main.py:492-610) as one tick:
the snapshot fetch (one `fetchSnapshot` call standing for the gateway's two
GETs), the dashboard from the fetched positions, and the profit scan over
the ledger.  The close-handler's trailing refresh is the next tick. -/
def fetch_and_display_orders (outerOk : Bool)
    (posResp : HttpOutcome (List Position)) (ordResp : HttpOutcome (List OpenOrder))
    (closeResp : HttpOutcome Int) (now : Int) (ledger : List Trade) : TickResult :=
  let snap := get_open_orders_and_positions outerOk posResp ordResp
  let scanned := profitScan snap.2 closeResp now ledger
  { dashboard := dashboardOf snap.2, orders := snap.1, ledger := scanned.1,
    calls := ExchangeCall.fetchSnapshot :: scanned.2 }

/-- `TradingBotUI._manual_close_trade` (main.py:618-643), with its trailing
`fetch_and_display_orders` refresh applied to the next snapshot: show a
snack bar, remove the trade from `active_trades` when present (no exchange
call is made by the removal itself), sleep 1s, then refresh. -/
def manual_close_trade (trade : Trade) (ledger : List Trade) (outerOk : Bool)
    (posResp : HttpOutcome (List Position)) (ordResp : HttpOutcome (List OpenOrder))
    (closeResp : HttpOutcome Int) (now : Int) : TickResult :=
  let ledger1 := if trade ∈ ledger then ledger.erase trade else ledger
  fetch_and_display_orders outerOk posResp ordResp closeResp now ledger1

/-! ### start_scalping_trade: quantity computation and fill polling -/

/-- `target_notional` (main.py:677). -/
def target_notional : ℚ := 10

/-- Python's `round`: banker's rounding (round half to even) of `q * 10^n`,
scaled back. -/
def roundHalfEven (q : ℚ) : ℤ :=
  let f := ⌊q⌋
  if q - f < 1 / 2 then f
  else if q - f > 1 / 2 then f + 1
  else if f % 2 = 0 then f else f + 1

def pyRound (q : ℚ) (n : ℕ) : ℚ := (roundHalfEven (q * 10 ^ n) : ℚ) / 10 ^ n

/-- The symbol-dependent rounding of the raw quantity (main.py:680-686):
4 decimals for BTCUSDT, 3 for ETHUSDT, none otherwise. -/
def round_quantity (symbol : String) (q : ℚ) : ℚ :=
  if symbol = "BTCUSDT" then pyRound q 4
  else if symbol = "ETHUSDT" then pyRound q 3
  else pyRound q 0

/-- The quantity `start_scalping_trade` sends (main.py:675-686): the target
notional divided by the current price, then rounded per symbol. -/
def computed_quantity (symbol : String) (current_price : ℚ) : ℚ :=
  round_quantity symbol (target_notional / current_price)

/-- The fill-success test of main.py:707:
`order_status and order_status.get('executedQty', '0') != '0'` (an absent
`executedQty` defaults to `'0'`; `None` — and the falsy empty dict, which
the default also sends to `'0'` — fails the test). -/
def fillConfirmed (s : Option OrderStatusPayload) : Bool :=
  match s with
  | some p => p.executedQty.getD "0" != "0"
  | none => false

/-- The retry loop of main.py:701-711, structurally: each iteration sleeps
0.5s then queries `get_order_status` for the current attempt index; a
confirmed fill breaks out.  Arguments: the status oracle per attempt, the
current attempt index, remaining iterations.  Returns (attempts performed,
total seconds slept). -/
def pollGo (oracle : ℕ → HttpOutcome OrderStatusPayload) (attempt : ℕ) : ℕ → ℕ × ℚ
  | 0 => (0, 0)
  | n + 1 =>
      if fillConfirmed (get_order_status (oracle attempt)) then (1, 1 / 2)
      else
        let r := pollGo oracle (attempt + 1) n
        (r.1 + 1, r.2 + 1 / 2)

/-- `max_retries` (main.py:702). -/
def max_retries : ℕ := 10

/-- The whole fill-confirmation poll after a FILLED placement. -/
def poll_order_fill (oracle : ℕ → HttpOutcome OrderStatusPayload) : ℕ × ℚ :=
  pollGo oracle 0 max_retries

/-- The FILLED branch of `start_scalping_trade` (main.py:696-722): run the
bounded poll, then append the new trade to `active_trades` — the append
happens whether or not any poll attempt confirmed the fill.  Returns the
new ledger and the poll's (attempts, seconds slept). -/
def start_scalping_filled (oracle : ℕ → HttpOutcome OrderStatusPayload)
    (ledger : List Trade) (new_trade : Trade) : List Trade × ℕ × ℚ :=
  let p := poll_order_fill oracle
  (ledger ++ [new_trade], p.1, p.2)

/-! ### Concrete fixtures

Sample payload rows used by concrete instances: the spec's ETHUSDT scenario
position (unrealized profit 5 is past the 2.00 target), a flat-profit
BTCUSDT position, and trades tracking each symbol. -/

def posBTC : Position :=
  { symbol := "BTCUSDT", positionAmt := 1, entryPrice := 50000, markPrice := 50010,
    liquidationPrice := 40000, marginRatioVal := 0, unRealizedProfit := 0 }

def posETH : Position :=
  { symbol := "ETHUSDT", positionAmt := -2, entryPrice := 3000, markPrice := 2990,
    liquidationPrice := 3500, marginRatioVal := 0, unRealizedProfit := 5 }

def tBTC : Trade := { symbol := "BTCUSDT", orderId := 78, quantity := 1, entry_time := 0, leverage := 50 }

def tETH : Trade := { symbol := "ETHUSDT", orderId := 77, quantity := 2, entry_time := 0, leverage := 50 }

def ordSample : OpenOrder :=
  { symbol := "BTCUSDT", side := "BUY", ordType := "LIMIT", price := 50000,
    origQty := 1, orderId := 41 }

/-! ### Helper lemmas -/

/-- A list containing an element satisfying `p` has a `find?` hit, the hit is
a member, and it satisfies `p`. -/
theorem find?_spec {α : Type} (p : α → Bool) :
    ∀ l : List α, (∃ a ∈ l, p a = true) →
      ∃ b, l.find? p = some b ∧ b ∈ l ∧ p b = true := by
  intro l
  induction l with
  | nil =>
      rintro ⟨a, ha, -⟩
      simp at ha
  | cons x xs ih =>
      rintro ⟨a, ha, hpa⟩
      by_cases hx : p x = true
      · exact ⟨x, by simp [List.find?_cons_of_pos _ hx], by simp, hx⟩
      · have hax : a ≠ x := fun h => hx (h ▸ hpa)
        have ha' : a ∈ xs := by
          rcases List.mem_cons.mp ha with h | h
          · exact absurd h hax
          · exact h
        obtain ⟨b, hf, hm, hp⟩ := ih ⟨a, ha', hpa⟩
        refine ⟨b, ?_, by simp [hm], hp⟩
        rw [List.find?_cons_of_neg _ (by simpa using hx)]
        exact hf

/-- When the first fetched position is open, it heads the filtered list. -/
theorem snapshot_positions_ok (ps : List Position) (ordResp : HttpOutcome (List OpenOrder)) :
    (get_open_orders_and_positions true (HttpOutcome.ok ps) ordResp).2 =
      ps.filter (fun p => decide (p.positionAmt ≠ 0)) := by
  cases ordResp <;> rfl

/-- `fetch_and_display_orders` decomposed into gateway fetch plus scan. -/
theorem fetch_and_display_decomp (outerOk : Bool)
    (posResp : HttpOutcome (List Position)) (ordResp : HttpOutcome (List OpenOrder))
    (closeResp : HttpOutcome Int) (now : Int) (ledger : List Trade) :
    fetch_and_display_orders outerOk posResp ordResp closeResp now ledger =
      { dashboard := dashboardOf (get_open_orders_and_positions outerOk posResp ordResp).2,
        orders := (get_open_orders_and_positions outerOk posResp ordResp).1,
        ledger := (profitScan (get_open_orders_and_positions outerOk posResp ordResp).2 closeResp now ledger).1,
        calls := ExchangeCall.fetchSnapshot ::
          (profitScan (get_open_orders_and_positions outerOk posResp ordResp).2 closeResp now ledger).2 } := rfl

/-- A `find?` hit turns the scan into one `_close_active_trade` invocation. -/
theorem profitScan_eq_close (pos : Position) (rest : List Position)
    (closeResp : HttpOutcome Int) (now : Int) (ledger : List Trade) (t0 : Trade)
    (hfind : ledger.find?
        (fun t => t.symbol == pos.symbol && decide (pos.unRealizedProfit ≥ scalping_profit_target)) =
      some t0) :
    profitScan (pos :: rest) closeResp now ledger =
      close_active_trade closeResp now pos.symbol pos.positionAmt t0 ledger := by
  simp [profitScan, hfind]

/-- Unless the close POST is cleanly rejected, `_close_active_trade` erases
the trade it was handed (when present) and issues exactly one close call. -/
theorem close_active_trade_closes (closeResp : HttpOutcome Int) (now : Int)
    (s : String) (a : ℚ) (t0 : Trade) (ledger : List Trade)
    (hresp : closeResp ≠ HttpOutcome.httpError) (hmem : t0 ∈ ledger) :
    close_active_trade closeResp now s a t0 ledger =
      (ledger.erase t0, [ExchangeCall.closeOrder s a]) := by
  have hstatus : (close_position_result closeResp now).1.status = "CLOSED" := by
    cases closeResp with
    | ok oid => rfl
    | httpError => exact absurd rfl hresp
    | exn => rfl
  simp [close_active_trade, hstatus, hmem]

/-- The scan's call trace is empty or a single close order. -/
theorem profitScan_calls_shape (positions : List Position) (closeResp : HttpOutcome Int)
    (now : Int) (ledger : List Trade) :
    (profitScan positions closeResp now ledger).2 = [] ∨
      ∃ s a, (profitScan positions closeResp now ledger).2 = [ExchangeCall.closeOrder s a] := by
  match positions with
  | [] => exact Or.inl rfl
  | pos :: rest =>
      rcases hfind : ledger.find?
          (fun t => t.symbol == pos.symbol && decide (pos.unRealizedProfit ≥ scalping_profit_target)) with
        _ | t0
      · exact Or.inl (by simp [profitScan, hfind])
      · exact Or.inr ⟨pos.symbol, pos.positionAmt, by simp [profitScan, hfind, close_active_trade]⟩

/-! ### Claims -/

set_option maxRecDepth 100000 in
/-- Claim C2: `_generate_signature` is a pure, deterministic function of
(params, secret); the digest is HMAC-SHA256 over the UTF-8 bytes of the
parameters urlencoded in caller-supplied order (not sorted); and swapping
the order of two parameters changes the signature, shown at a concrete
parameter mapping whose two orderings hash to different digests. -/
theorem C2_signature_deterministic_order_sensitive :
    (∀ secret params, generate_signature secret params =
        hexDigest (hmacSha256 (utf8Bytes secret) (utf8Bytes (urlencode params))))
  ∧ (∀ secret params, generate_signature secret params = generate_signature secret params)
  ∧ generate_signature "k" [("a", "1"), ("b", "2")] ≠
      generate_signature "k" [("b", "2"), ("a", "1")] :=
  ⟨fun _ _ => rfl, fun _ _ => rfl, by decide⟩

/-- Claim C3: `place_scalping_order` returns FILLED with the real exchange
order id on an HTTP 200, ERROR with no order id on a clean rejection, and on
a transport exception sleeps 2 seconds and fabricates FILLED with the
time-derived fake id `int(time.time())`. -/
theorem C3_place_order_outcomes :
    (∀ (sym : String) (q : ℚ) (oid : Int) (now : Int),
        place_scalping_order sym q (HttpOutcome.ok oid) now =
          ({ status := "FILLED", orderId := some oid, symbol := some sym, quantity := some q }, 0))
  ∧ (∀ (sym : String) (q : ℚ) (now : Int),
        place_scalping_order sym q HttpOutcome.httpError now =
          ({ status := "ERROR", orderId := none, symbol := none, quantity := none }, 0))
  ∧ (∀ (sym : String) (q : ℚ) (now : Int),
        place_scalping_order sym q HttpOutcome.exn now =
          ({ status := "FILLED", orderId := some now, symbol := some sym, quantity := some q }, 2)) :=
  ⟨fun _ _ _ _ => rfl, fun _ _ _ => rfl, fun _ _ _ => rfl⟩

/-- Claim C4: `get_open_orders_and_positions` is total (each source failure
path is caught and embedded as a value); it returns `([], [])` when the
session setup fails or when both isolated fetches fail, and when exactly one
fetch fails the other side's data is still returned. -/
theorem C4_gateway_isolated_failures :
    (∀ (posResp : HttpOutcome (List Position)) (ordResp : HttpOutcome (List OpenOrder)),
        get_open_orders_and_positions false posResp ordResp = ([], []))
  ∧ (∀ (posResp : HttpOutcome (List Position)) (ordResp : HttpOutcome (List OpenOrder)),
        (posResp = HttpOutcome.httpError ∨ posResp = HttpOutcome.exn) →
        (ordResp = HttpOutcome.httpError ∨ ordResp = HttpOutcome.exn) →
        get_open_orders_and_positions true posResp ordResp = ([], []))
  ∧ (∀ (ps : List Position) (ordResp : HttpOutcome (List OpenOrder)),
        (ordResp = HttpOutcome.httpError ∨ ordResp = HttpOutcome.exn) →
        get_open_orders_and_positions true (HttpOutcome.ok ps) ordResp =
          ([], ps.filter (fun p => decide (p.positionAmt ≠ 0))))
  ∧ (∀ (os : List OpenOrder) (posResp : HttpOutcome (List Position)),
        (posResp = HttpOutcome.httpError ∨ posResp = HttpOutcome.exn) →
        get_open_orders_and_positions true posResp (HttpOutcome.ok os) = (os, [])) := by
  refine ⟨fun _ _ => rfl, ?_, ?_, ?_⟩
  · rintro posResp ordResp (rfl | rfl) (rfl | rfl) <;> rfl
  · rintro ps ordResp (rfl | rfl) <;> rfl
  · rintro os posResp (rfl | rfl) <;> rfl

/-- Witness for C4 at concrete inputs: a failed order fetch still returns
the fetched open position, a failed position fetch still returns the fetched
order, and a double failure returns `([], [])`. -/
theorem C4_witness :
    get_open_orders_and_positions true (HttpOutcome.ok [posETH]) HttpOutcome.exn = ([], [posETH])
  ∧ get_open_orders_and_positions true HttpOutcome.httpError (HttpOutcome.ok [ordSample]) =
      ([ordSample], [])
  ∧ get_open_orders_and_positions true HttpOutcome.httpError HttpOutcome.exn = ([], []) := by
  refine ⟨?_, ?_, ?_⟩
  · have h := C4_gateway_isolated_failures.2.2.1 [posETH] HttpOutcome.exn (Or.inr rfl)
    rw [h]
    decide
  · exact C4_gateway_isolated_failures.2.2.2 [ordSample] HttpOutcome.httpError (Or.inl rfl)
  · exact C4_gateway_isolated_failures.2.1 HttpOutcome.httpError HttpOutcome.exn (Or.inl rfl) (Or.inr rfl)

/-- Claim C5: `close_position` builds an opposite-side market order sized at
the absolute position amount — SELL when the amount is positive, BUY
otherwise — and at the ETHUSDT scenario (amount `-2.0`) the request is a
BUY for quantity `2.0`. -/
theorem C5_close_position_opposite_side :
    (∀ (s : String) (a : ℚ),
        (close_position_request s a).side = if a > 0 then "SELL" else "BUY")
  ∧ (∀ (s : String) (a : ℚ), (close_position_request s a).quantity = |a|)
  ∧ (∀ (s : String) (a : ℚ), (close_position_request s a).ordType = "MARKET")
  ∧ close_position_request "ETHUSDT" (-2) =
      { symbol := "ETHUSDT", side := "BUY", ordType := "MARKET", quantity := 2 } :=
  ⟨fun _ _ => rfl, fun _ _ => rfl, fun _ _ => rfl, by decide⟩

/-- Claim C9: the `cancel_order` stub makes no exchange call at all and, for
every order id, sleeps a fixed 1 second and reports success — status
CANCELED with the given id. -/
theorem C9_cancel_order_stub :
    ∀ oid : Int, cancel_order oid = ({ status := "CANCELED", id := oid }, 1, []) :=
  fun _ => rfl

/-- `_close_active_trade` either leaves the ledger alone or erases exactly
the trade it was handed. -/
theorem close_active_trade_fst (closeResp : HttpOutcome Int) (now : Int)
    (s : String) (a : ℚ) (t0 : Trade) (ledger : List Trade) :
    (close_active_trade closeResp now s a t0 ledger).1 = ledger ∨
      (close_active_trade closeResp now s a t0 ledger).1 = ledger.erase t0 := by
  unfold close_active_trade
  by_cases h1 : (close_position_result closeResp now).1.status = "CLOSED" <;>
    by_cases h2 : t0 ∈ ledger <;> simp [h1, h2]

/-- Claim C1, counterexample to the claim as stated: `tETH` tracks ETHUSDT,
the fetched snapshot contains an ETHUSDT position whose unrealized profit 5
is past the 2.00 target — yet because that position is not `positions[0]`
(a BTCUSDT position heads the list), the tick triggers no close call and
removes nothing. -/
theorem C1_counterexample :
    tETH.symbol = posETH.symbol
  ∧ posETH ∈ (get_open_orders_and_positions true (HttpOutcome.ok [posBTC, posETH])
        (HttpOutcome.ok [])).2
  ∧ scalping_profit_target ≤ posETH.unRealizedProfit
  ∧ (fetch_and_display_orders true (HttpOutcome.ok [posBTC, posETH]) (HttpOutcome.ok [])
        (HttpOutcome.ok 99) 0 [tETH]).ledger = [tETH]
  ∧ (fetch_and_display_orders true (HttpOutcome.ok [posBTC, posETH]) (HttpOutcome.ok [])
        (HttpOutcome.ok 99) 0 [tETH]).calls = [ExchangeCall.fetchSnapshot] :=
  ⟨rfl, by decide, by decide, by decide, by decide⟩

/-- Claim C1 as amended: when a tracked Trade's symbol matches the FIRST
Position of the fetched snapshot, that position's unrealized profit has
reached the 2.00 target, and the close POST is not cleanly rejected, the
tick makes exactly one close_position call (so at most one auto-close per
tick), removes exactly one Trade from the ledger, every removed Trade
matches the symbol, and Trades for non-matching symbols are untouched. -/
theorem C1_amended_first_position_autoclose
    (pos : Position) (rest : List Position) (ordResp : HttpOutcome (List OpenOrder))
    (closeResp : HttpOutcome Int) (now : Int) (ledger : List Trade) (t : Trade)
    (hmem : t ∈ ledger) (hsym : t.symbol = pos.symbol)
    (hpnl : scalping_profit_target ≤ pos.unRealizedProfit)
    (hamt : pos.positionAmt ≠ 0) (hresp : closeResp ≠ HttpOutcome.httpError) :
    (fetch_and_display_orders true (HttpOutcome.ok (pos :: rest)) ordResp closeResp now
        ledger).calls =
      [ExchangeCall.fetchSnapshot, ExchangeCall.closeOrder pos.symbol pos.positionAmt]
  ∧ (fetch_and_display_orders true (HttpOutcome.ok (pos :: rest)) ordResp closeResp now
        ledger).ledger.length + 1 = ledger.length
  ∧ (∀ u ∈ ledger, u.symbol ≠ pos.symbol →
      u ∈ (fetch_and_display_orders true (HttpOutcome.ok (pos :: rest)) ordResp closeResp now
        ledger).ledger)
  ∧ (∀ u ∈ ledger, u ∉ (fetch_and_display_orders true (HttpOutcome.ok (pos :: rest)) ordResp
        closeResp now ledger).ledger → u.symbol = pos.symbol) := by
  have hq : (fun tr : Trade =>
      tr.symbol == pos.symbol && decide (pos.unRealizedProfit ≥ scalping_profit_target)) t = true := by
    simp [hsym, hpnl]
  obtain ⟨t0, hfind, ht0mem, hqt0⟩ := find?_spec
    (fun tr : Trade =>
      tr.symbol == pos.symbol && decide (pos.unRealizedProfit ≥ scalping_profit_target))
    ledger ⟨t, hmem, hq⟩
  have ht0sym : t0.symbol = pos.symbol := by
    have h1 := hqt0
    simp only [Bool.and_eq_true, beq_iff_eq, decide_eq_true_eq] at h1
    exact h1.1
  have hsnap : (get_open_orders_and_positions true (HttpOutcome.ok (pos :: rest)) ordResp).2 =
      pos :: rest.filter (fun p => decide (p.positionAmt ≠ 0)) := by
    rw [snapshot_positions_ok]
    simp [List.filter_cons, hamt]
  have hscan : profitScan (get_open_orders_and_positions true (HttpOutcome.ok (pos :: rest))
      ordResp).2 closeResp now ledger =
      (ledger.erase t0, [ExchangeCall.closeOrder pos.symbol pos.positionAmt]) := by
    rw [hsnap, profitScan_eq_close _ _ _ _ _ _ hfind,
      close_active_trade_closes _ _ _ _ _ _ hresp ht0mem]
  have hall : fetch_and_display_orders true (HttpOutcome.ok (pos :: rest)) ordResp closeResp now
      ledger =
      { dashboard := dashboardOf (pos :: rest.filter (fun p => decide (p.positionAmt ≠ 0))),
        orders := (get_open_orders_and_positions true (HttpOutcome.ok (pos :: rest)) ordResp).1,
        ledger := ledger.erase t0,
        calls := [ExchangeCall.fetchSnapshot, ExchangeCall.closeOrder pos.symbol pos.positionAmt] } := by
    rw [fetch_and_display_decomp, hscan, hsnap]
  have hlen : (ledger.erase t0).length = ledger.length - 1 := List.length_erase_of_mem ht0mem
  have hpos : 0 < ledger.length := List.length_pos.mpr (List.ne_nil_of_mem ht0mem)
  refine ⟨by rw [hall], ?_, ?_, ?_⟩
  · simp only [hall]
    omega
  · intro u hu hne
    simp only [hall]
    exact (List.mem_erase_of_ne (fun e => hne (by rw [e]; exact ht0sym))).mpr hu
  · intro u hu hnot
    simp only [hall] at hnot
    by_contra hcon
    exact hnot ((List.mem_erase_of_ne (fun e : u = t0 => hcon (by rw [e]; exact ht0sym))).mpr hu)

/-- Witness for C1 (amended) at the spec's scenario: one tracked ETHUSDT
trade, snapshot headed by the ETHUSDT position with unrealized profit 5 ≥ 2,
close POST succeeds: exactly one close call, the one trade is removed. -/
theorem C1_witness :
    (fetch_and_display_orders true (HttpOutcome.ok [posETH]) (HttpOutcome.ok [])
        (HttpOutcome.ok 99) 0 [tETH]).calls =
      [ExchangeCall.fetchSnapshot, ExchangeCall.closeOrder posETH.symbol posETH.positionAmt]
  ∧ (fetch_and_display_orders true (HttpOutcome.ok [posETH]) (HttpOutcome.ok [])
        (HttpOutcome.ok 99) 0 [tETH]).ledger.length + 1 = [tETH].length
  ∧ (∀ u ∈ [tETH], u.symbol ≠ posETH.symbol →
      u ∈ (fetch_and_display_orders true (HttpOutcome.ok [posETH]) (HttpOutcome.ok [])
        (HttpOutcome.ok 99) 0 [tETH]).ledger)
  ∧ (∀ u ∈ [tETH], u ∉ (fetch_and_display_orders true (HttpOutcome.ok [posETH])
        (HttpOutcome.ok []) (HttpOutcome.ok 99) 0 [tETH]).ledger → u.symbol = posETH.symbol) :=
  C1_amended_first_position_autoclose posETH [] (HttpOutcome.ok []) (HttpOutcome.ok 99) 0
    [tETH] tETH (by decide) rfl (by decide) (by decide) (by decide)

/-- Claim C6: the per-tick scan inspects only `positions[0]`: the dashboard
and the profit scan are invariant under the tail of the positions list, and
a Trade whose symbol differs from the first position's is never auto-closed
on that tick — it stays in the ledger and no close call carries its
symbol — regardless of any later position's unrealized profit. -/
theorem C6_scan_head_only
    (pos : Position) (rest rest' : List Position) (closeResp : HttpOutcome Int)
    (now : Int) (ledger : List Trade) :
    profitScan (pos :: rest) closeResp now ledger = profitScan (pos :: rest') closeResp now ledger
  ∧ dashboardOf (pos :: rest) = dashboardOf (pos :: rest')
  ∧ (∀ t ∈ ledger, t.symbol ≠ pos.symbol →
      t ∈ (profitScan (pos :: rest) closeResp now ledger).1
      ∧ ∀ amt, ExchangeCall.closeOrder t.symbol amt ∉
          (profitScan (pos :: rest) closeResp now ledger).2) := by
  refine ⟨rfl, rfl, ?_⟩
  intro t ht hne
  rcases hfind : ledger.find?
      (fun tr => tr.symbol == pos.symbol && decide (pos.unRealizedProfit ≥ scalping_profit_target)) with
    _ | t0
  · constructor
    · simpa [profitScan, hfind] using ht
    · intro amt
      simp [profitScan, hfind]
  · have hqt0 := List.find?_some hfind
    have ht0sym : t0.symbol = pos.symbol := by
      have h1 := hqt0
      simp only [Bool.and_eq_true, beq_iff_eq, decide_eq_true_eq] at h1
      exact h1.1
    have hneq : t ≠ t0 := fun e => hne (by rw [e]; exact ht0sym)
    have hscan := profitScan_eq_close pos rest closeResp now ledger t0 hfind
    constructor
    · rw [hscan]
      rcases close_active_trade_fst closeResp now pos.symbol pos.positionAmt t0 ledger with h | h <;>
        rw [h]
      · exact ht
      · exact (List.mem_erase_of_ne hneq).mpr ht
    · intro amt
      rw [hscan]
      show ExchangeCall.closeOrder t.symbol amt ∉ [ExchangeCall.closeOrder pos.symbol pos.positionAmt]
      simp only [List.mem_singleton, ExchangeCall.closeOrder.injEq, not_and]
      intro h1
      exact absurd h1 hne

/-- Witness for C6: with a BTCUSDT position heading the snapshot and the
qualifying ETHUSDT position only second, the tracked ETHUSDT trade survives
the tick, no close call carries its symbol, and dropping the tail changes
nothing. -/
theorem C6_witness :
    tETH ∈ (profitScan [posBTC, posETH] (HttpOutcome.ok 99) 0 [tETH]).1
  ∧ ExchangeCall.closeOrder tETH.symbol (-2) ∉
      (profitScan [posBTC, posETH] (HttpOutcome.ok 99) 0 [tETH]).2
  ∧ profitScan [posBTC, posETH] (HttpOutcome.ok 99) 0 [tETH] =
      profitScan [posBTC] (HttpOutcome.ok 99) 0 [tETH] := by
  have h := C6_scan_head_only posBTC [posETH] [] (HttpOutcome.ok 99) 0 [tETH]
  have h3 := h.2.2 tETH (by decide) (by decide)
  exact ⟨h3.1, h3.2 (-2), h.1⟩

/-- Claim C7, counterexample to the claim as stated: manually closing the
BTCUSDT trade runs the embedded refresh, which hits the snapshot-fetch
endpoint and — because the freshly fetched ETHUSDT position qualifies for
auto-close — also invokes `close_position` and removes the *other* ledger
entry `tETH`. -/
theorem C7_counterexample :
    ExchangeCall.fetchSnapshot ∈ (manual_close_trade tBTC [tBTC, tETH] true
      (HttpOutcome.ok [posETH]) (HttpOutcome.ok []) (HttpOutcome.ok 99) 0).calls
  ∧ ExchangeCall.closeOrder "ETHUSDT" (-2) ∈ (manual_close_trade tBTC [tBTC, tETH] true
      (HttpOutcome.ok [posETH]) (HttpOutcome.ok []) (HttpOutcome.ok 99) 0).calls
  ∧ tETH ≠ tBTC
  ∧ tETH ∉ (manual_close_trade tBTC [tBTC, tETH] true
      (HttpOutcome.ok [posETH]) (HttpOutcome.ok []) (HttpOutcome.ok 99) 0).ledger :=
  ⟨by decide, by decide, by decide, by decide⟩

/-- Claim C7 as amended: the manual-close intent's own ledger mutation
removes only the given Trade (when present) and performs no exchange call
itself; the subsequent display refresh is exactly one ordinary tick on the
post-removal ledger — it issues the read-only snapshot fetch and may run
the auto-close scan — and the cancel endpoint is never invoked. -/
theorem C7_amended_manual_close
    (trade : Trade) (ledger : List Trade) (outerOk : Bool)
    (posResp : HttpOutcome (List Position)) (ordResp : HttpOutcome (List OpenOrder))
    (closeResp : HttpOutcome Int) (now : Int) :
    manual_close_trade trade ledger outerOk posResp ordResp closeResp now =
        fetch_and_display_orders outerOk posResp ordResp closeResp now
          (if trade ∈ ledger then ledger.erase trade else ledger)
  ∧ (∀ u ∈ ledger, u ≠ trade →
      u ∈ (if trade ∈ ledger then ledger.erase trade else ledger))
  ∧ (∀ oid, ExchangeCall.cancelEndpoint oid ∉
      (manual_close_trade trade ledger outerOk posResp ordResp closeResp now).calls) := by
  refine ⟨rfl, ?_, ?_⟩
  · intro u hu hne
    by_cases hmem : trade ∈ ledger
    · rw [if_pos hmem]
      exact (List.mem_erase_of_ne hne).mpr hu
    · rw [if_neg hmem]
      exact hu
  · intro oid
    have hc : (manual_close_trade trade ledger outerOk posResp ordResp closeResp now).calls =
        ExchangeCall.fetchSnapshot ::
          (profitScan (get_open_orders_and_positions outerOk posResp ordResp).2 closeResp now
            (if trade ∈ ledger then ledger.erase trade else ledger)).2 := rfl
    rw [hc]
    rcases profitScan_calls_shape (get_open_orders_and_positions outerOk posResp ordResp).2
        closeResp now (if trade ∈ ledger then ledger.erase trade else ledger) with
      h | ⟨s, a, h⟩ <;> rw [h] <;> simp

/-- Witness for C7 (amended) at concrete inputs: the removal step keeps the
other trade, the whole intent equals one tick on the reduced ledger, and no
cancel-endpoint call appears. -/
theorem C7_witness :
    manual_close_trade tBTC [tBTC, tETH] true (HttpOutcome.ok [posETH]) (HttpOutcome.ok [])
        (HttpOutcome.ok 99) 0 =
      fetch_and_display_orders true (HttpOutcome.ok [posETH]) (HttpOutcome.ok [])
        (HttpOutcome.ok 99) 0
        (if tBTC ∈ [tBTC, tETH] then [tBTC, tETH].erase tBTC else [tBTC, tETH])
  ∧ tETH ∈ (if tBTC ∈ [tBTC, tETH] then [tBTC, tETH].erase tBTC else [tBTC, tETH])
  ∧ ExchangeCall.cancelEndpoint 5 ∉ (manual_close_trade tBTC [tBTC, tETH] true
      (HttpOutcome.ok [posETH]) (HttpOutcome.ok []) (HttpOutcome.ok 99) 0).calls := by
  have h := C7_amended_manual_close tBTC [tBTC, tETH] true (HttpOutcome.ok [posETH])
    (HttpOutcome.ok []) (HttpOutcome.ok 99) 0
  exact ⟨h.1, h.2.1 tETH (by decide) (by decide), h.2.2 5⟩

/-- The poll loop never performs more iterations than its fuel allows. -/
theorem pollGo_fst_le (oracle : ℕ → HttpOutcome OrderStatusPayload) :
    ∀ (n a : ℕ), (pollGo oracle a n).1 ≤ n := by
  intro n
  induction n with
  | zero => intro a; simp [pollGo]
  | succ n ih =>
      intro a
      by_cases h : fillConfirmed (get_order_status (oracle a)) = true
      · simp [pollGo, h]
      · have hrec := ih (a + 1)
        rw [pollGo, if_neg h]
        simp only []
        omega

/-- With no confirmed fill in the window, the loop runs its full fuel,
sleeping half a second per attempt. -/
theorem pollGo_all_fail (oracle : ℕ → HttpOutcome OrderStatusPayload) :
    ∀ (n a : ℕ),
      (∀ i, i < n → fillConfirmed (get_order_status (oracle (a + i))) = false) →
      pollGo oracle a n = (n, (n : ℚ) / 2) := by
  intro n
  induction n with
  | zero => intro a _; simp [pollGo]
  | succ n ih =>
      intro a h
      have h0 : fillConfirmed (get_order_status (oracle a)) = false := by
        simpa using h 0 n.succ_pos
      have hrec := ih (a + 1) (fun i hi => by
        have hx := h (i + 1) (by omega)
        have e : a + (i + 1) = a + 1 + i := by omega
        rwa [e] at hx)
      rw [pollGo, if_neg (by simp [h0]), hrec]
      simp only [Prod.mk.injEq, true_and]
      push_cast
      ring

/-- With the first confirmed fill at attempt index `k` inside the window,
the loop stops after exactly `k + 1` attempts. -/
theorem pollGo_first_success (oracle : ℕ → HttpOutcome OrderStatusPayload) :
    ∀ (n a k : ℕ), k < n →
      (∀ j, j < k → fillConfirmed (get_order_status (oracle (a + j))) = false) →
      fillConfirmed (get_order_status (oracle (a + k))) = true →
      pollGo oracle a n = (k + 1, ((k : ℚ) + 1) / 2) := by
  intro n
  induction n with
  | zero => intro a k hk; exact absurd hk (Nat.not_lt_zero k)
  | succ n ih =>
      intro a k hk hfail hsucc
      cases k with
      | zero =>
          have h0 : fillConfirmed (get_order_status (oracle a)) = true := by simpa using hsucc
          rw [pollGo, if_pos (by simp [h0])]
          norm_num
      | succ k' =>
          have h0 : fillConfirmed (get_order_status (oracle a)) = false := by
            simpa using hfail 0 k'.succ_pos
          have hrec := ih (a + 1) k' (by omega)
            (fun j hj => by
              have hx := hfail (j + 1) (by omega)
              have e : a + (j + 1) = a + 1 + j := by omega
              rwa [e] at hx)
            (by
              have e : a + (k' + 1) = a + 1 + k' := by omega
              rwa [e] at hsucc)
          rw [pollGo, if_neg (by simp [h0]), hrec]
          simp only [Prod.mk.injEq, true_and]
          push_cast
          ring

/-- Claim C8: after a FILLED placement, the fill poll performs at most the
configured 10 attempts at a fixed half-second interval — exactly 10 when no
attempt confirms, exactly `k + 1` when attempt index `k` is the first to
confirm a nonzero executed quantity — it returns a value (the source
catches every failure, so exhaustion raises nothing), and the trade is
appended to `active_trades` whatever the poll observed. -/
theorem C8_poll_bounded_retry :
    (∀ oracle, (poll_order_fill oracle).1 ≤ max_retries)
  ∧ (∀ oracle,
      (∀ i, i < max_retries → fillConfirmed (get_order_status (oracle i)) = false) →
      poll_order_fill oracle = (max_retries, (max_retries : ℚ) / 2))
  ∧ (∀ oracle k, k < max_retries →
      (∀ j, j < k → fillConfirmed (get_order_status (oracle j)) = false) →
      fillConfirmed (get_order_status (oracle k)) = true →
      poll_order_fill oracle = (k + 1, ((k : ℚ) + 1) / 2))
  ∧ (∀ oracle ledger t, (start_scalping_filled oracle ledger t).1 = ledger ++ [t]) := by
  refine ⟨fun oracle => pollGo_fst_le oracle max_retries 0, ?_, ?_, fun _ _ _ => rfl⟩
  · intro oracle h
    exact pollGo_all_fail oracle max_retries 0 (fun i hi => by simpa using h i hi)
  · intro oracle k hk hfail hsucc
    exact pollGo_first_success oracle max_retries 0 k hk
      (fun j hj => by simpa using hfail j hj) (by simpa using hsucc)

/-- Witness for C8: an always-failing oracle makes the poll run all 10
attempts over 5 seconds; an oracle confirming the fill at attempt index 3
stops the poll after 4 attempts and 2 seconds; the trade is appended on the
exhausted run. -/
theorem C8_witness :
    poll_order_fill (fun _ => HttpOutcome.httpError) = (10, 5)
  ∧ poll_order_fill
        (fun i => if i < 3 then HttpOutcome.httpError else HttpOutcome.ok { executedQty := some "1" }) =
      (4, 2)
  ∧ (start_scalping_filled (fun _ => HttpOutcome.httpError) [tBTC] tETH).1 = [tBTC, tETH] := by
  refine ⟨?_, ?_, ?_⟩
  · have h := C8_poll_bounded_retry.2.1 (fun _ => HttpOutcome.httpError) (fun i _ => rfl)
    rw [h]
    norm_num [max_retries]
  · have h := C8_poll_bounded_retry.2.2.1
      (fun i => if i < 3 then HttpOutcome.httpError else HttpOutcome.ok { executedQty := some "1" })
      3 (by decide) (by decide) (by decide)
    rw [h]
    norm_num
  · exact C8_poll_bounded_retry.2.2.2 (fun _ => HttpOutcome.httpError) [tBTC] tETH

/-- Claim C10: at symbol BTCUSDT with price 50000 and target notional 10,
the raw quantity is `10 / 50000 = 0.0002`, and the BTCUSDT rule (round to 4
decimals) leaves `0.0002` as the quantity sent. -/
theorem C10_btc_quantity_scenario :
    target_notional / 50000 = (0.0002 : ℚ)
  ∧ computed_quantity "BTCUSDT" 50000 = (0.0002 : ℚ) := by
  constructor <;>
    norm_num [computed_quantity, round_quantity, pyRound, roundHalfEven, target_notional]

end AppBinance
